import Mathlib

/-
Verification development for the gpu2 telemetry server (`server.py`).

The embedding models JSON reports as structures with `Option` fields: a
`none` field or section models an absent dictionary key.  Numeric JSON
values are modelled as rationals (`ℚ`); wall-clock timestamps are rationals
as well.  Python operations that can raise (a `KeyError` on a direct
subscript such as `item["memory"]["total_gb"]`) are modelled in the
`Option` monad, `none` standing for the raised exception.  `round(x, 2)`
is modelled as rounding `x` to the nearest multiple of 1/100 (the claims
never exercise a tie, so the tie-breaking direction is immaterial).

The `/all` handler copies each stored report with `dict.copy()` — a
shallow copy — and then writes through `item["gpus"][index]`, which is the
same list (and the same inner dictionaries) as the stored report's.  The
embedding makes this aliasing explicit: `listItem` returns both the item
appended to the response and the report the store holds afterwards.
-/

set_option autoImplicit false

namespace Gpu2

/-- One element of a report's `cpus` list; each key is optional. -/
structure CpuInfo where
  cores : Option ℚ := none
  usage_percent : Option ℚ := none
deriving DecidableEq

/-- The `memory` section of a report; each key is optional. -/
structure MemInfo where
  total_gb : Option ℚ := none
  used_gb : Option ℚ := none
deriving DecidableEq

/-- One element of a report's `disks` list; each key is optional. -/
structure DiskInfo where
  total_gb : Option ℚ := none
  used_gb : Option ℚ := none
deriving DecidableEq

/-- One element of a report's `gpus` list; each key is optional.
`old_model` models the `old_model` key that the `/all` handler may add. -/
structure GpuInfo where
  model : Option String := none
  old_model : Option String := none
  usage_percent : Option ℚ := none
  memory_total_gb : Option ℚ := none
  memory_used_gb : Option ℚ := none
deriving DecidableEq

/-- A telemetry report as stored by the server: every section optional
(`none` models an absent key). -/
structure Report where
  hostname : Option String := none
  cpus : Option (List CpuInfo) := none
  memory : Option MemInfo := none
  disks : Option (List DiskInfo) := none
  gpus : Option (List GpuInfo) := none
deriving DecidableEq

/-- One value of `data_store`: `{"report": ..., "timestamp": ...}`. -/
structure Entry where
  report : Report
  timestamp : ℚ
deriving DecidableEq

/-- The `data_store` dictionary, as an association list in insertion
order (Python dictionaries iterate in insertion order, keys unique). -/
abbrev Store := List (String × Entry)

/-- `HOSTNAME_MAP` from `server.py`. -/
def HOSTNAME_MAP : List (String × String) :=
  [("user-ThinkStation-PX", "user-ThinkStation-PX1")]

/-- `MODEL_NAME_MAP` from `server.py`. -/
def MODEL_NAME_MAP : List (String × String) :=
  [("NVIDIA RTX 5880 Ada Generation", "RTX 4080 Ada")]

/-- First value bound to key `k`, like a Python dictionary lookup. -/
def mapLookup (k : String) : List (String × String) → Option String
  | [] => none
  | (k2, v) :: rest => if k2 = k then some v else mapLookup k rest

/-- Whether `store` holds an entry keyed `k` (`k in data_store`). -/
def hasKey (k : String) (store : Store) : Bool :=
  store.any (fun kv => kv.1 = k)

/-- The entry stored under key `k`, if any. -/
def findEntry (k : String) : Store → Option Entry
  | [] => none
  | (k2, e) :: rest => if k2 = k then some e else findEntry k rest

/-- Keys pairwise distinct — always true of a Python dictionary. -/
def keysDistinct : Store → Bool
  | [] => true
  | (k, _) :: rest => !(hasKey k rest) && keysDistinct rest

/-- `cleanup()`: drop every entry older than 300 seconds. -/
def cleanup (now : ℚ) (store : Store) : Store :=
  store.filter (fun kv => decide (now - kv.2.timestamp ≤ 300))

/-- The `filtered` list built at the top of `calculate_merge`: reports of
entries at most 30 seconds old, restricted to `ids` when `ids` is truthy
(Python's `if ids:` is false for `None` and for the empty list). -/
def filteredReports (ids : Option (List String)) (now : ℚ) (store : Store) :
    List Report :=
  match ids with
  | some (i :: rest) =>
      (store.filter (fun kv =>
        decide (kv.1 ∈ i :: rest) && decide (now - kv.2.timestamp ≤ 30))).map
        (fun kv => kv.2.report)
  | _ =>
      (store.filter (fun kv => decide (now - kv.2.timestamp ≤ 30))).map
        (fun kv => kv.2.report)

/-- `filteredReports` with no id filter (used by `/merge` without `ids`). -/
def freshReports (now : ℚ) (store : Store) : List Report :=
  (store.filter (fun kv => decide (now - kv.2.timestamp ≤ 30))).map
    (fun kv => kv.2.report)

/-- `round(x, 2)`: round to 2 decimal places. -/
def round2 (q : ℚ) : ℚ := ((round (q * 100) : ℤ) : ℚ) / 100

/-- The `cpu_result` dictionary of `calculate_merge`. -/
structure CpuResult where
  cores : ℚ
  usage_percent : ℚ
deriving DecidableEq

/-- The `mem_result` dictionary of `calculate_merge`. -/
structure MemResult where
  total_gb : ℚ
  used_gb : ℚ
  usage_percent : ℚ
deriving DecidableEq

/-- The `disk_result` dictionary of `calculate_merge`. -/
structure DiskResult where
  total_gb : ℚ
  used_gb : ℚ
  usage_percent : ℚ
deriving DecidableEq

/-- The `gpu_result` dictionary of `calculate_merge`. -/
structure GpuResult where
  memory_total_gb : ℚ
  memory_used_gb : ℚ
  memory_usage_percent : ℚ
  usage_percent : ℚ
deriving DecidableEq

/-- The dictionary returned by `calculate_merge` on non-empty input. -/
structure MergedSummary where
  cpus : CpuResult
  memory : MemResult
  disk : DiskResult
  gpus : GpuResult
deriving DecidableEq

/-- Result of `calculate_merge`: either the empty-summary sentinel `{}`
or a full summary. -/
inductive MergeResult where
  | emptyResult : MergeResult
  | ok : MergedSummary → MergeResult
deriving DecidableEq

/-- The `# CPU` loop of `calculate_merge`: accumulates
`(total_cores, cpu_usage_sum)` over every CPU entry of every report,
absent keys defaulting to 0 (`cpu.get("cores", 0)` etc.). -/
def cpuFold (rs : List Report) : ℚ × ℚ :=
  rs.foldl
    (fun acc item =>
      (item.cpus.getD []).foldl
        (fun acc2 cpu =>
          (acc2.1 + cpu.cores.getD 0,
           acc2.2 + cpu.usage_percent.getD 0 * cpu.cores.getD 0))
        acc)
    (0, 0)

/-- The `cpu_result` block: weighted usage, guarded by `total_cores > 0`. -/
def cpu_result (rs : List Report) : CpuResult :=
  let acc := cpuFold rs
  ⟨acc.1, round2 (if acc.1 > 0 then acc.2 / acc.1 else 0)⟩

/-- `sum(i["memory"]["total_gb"] for i in filtered)`: fails (`none`)
when a report lacks the `memory` section or the `total_gb` key. -/
def memTotal : List Report → Option ℚ
  | [] => some 0
  | r :: rs =>
      match r.memory with
      | none => none
      | some m =>
          match m.total_gb, memTotal rs with
          | some t, some rest => some (t + rest)
          | _, _ => none

/-- `sum(i["memory"]["used_gb"] for i in filtered)`. -/
def memUsed : List Report → Option ℚ
  | [] => some 0
  | r :: rs =>
      match r.memory with
      | none => none
      | some m =>
          match m.used_gb, memUsed rs with
          | some u, some rest => some (u + rest)
          | _, _ => none

/-- The `mem_result` block; Python's `if total_mem else 0` guard is
truthiness, i.e. `total_mem ≠ 0`. -/
def mem_result (rs : List Report) : Option MemResult :=
  match memTotal rs, memUsed rs with
  | some total_mem, some used_mem =>
      some ⟨round2 total_mem, round2 used_mem,
            round2 (if total_mem ≠ 0 then used_mem / total_mem * 100 else 0)⟩
  | _, _ => none

/-- All disks of all reports, flattened (`item.get("disks", [])`). -/
def allDisks (rs : List Report) : List DiskInfo :=
  (rs.map (fun r => r.disks.getD [])).flatten

/-- `sum(d["total_gb"] ...)` over flattened disks: fails when a disk
entry lacks `total_gb`. -/
def diskTotal : List DiskInfo → Option ℚ
  | [] => some 0
  | d :: ds =>
      match d.total_gb, diskTotal ds with
      | some t, some rest => some (t + rest)
      | _, _ => none

/-- `sum(d["used_gb"] ...)` over flattened disks. -/
def diskUsed : List DiskInfo → Option ℚ
  | [] => some 0
  | d :: ds =>
      match d.used_gb, diskUsed ds with
      | some u, some rest => some (u + rest)
      | _, _ => none

/-- The `disk_result` block. -/
def disk_result (rs : List Report) : Option DiskResult :=
  match diskTotal (allDisks rs), diskUsed (allDisks rs) with
  | some total_disk, some used_disk =>
      some ⟨round2 total_disk, round2 used_disk,
            round2 (if total_disk ≠ 0 then used_disk / total_disk * 100 else 0)⟩
  | _, _ => none

/-- Accumulator of the `# GPU` loop of `calculate_merge`. -/
structure GpuAcc where
  count : ℕ
  usage_sum : ℚ
  mem_total : ℚ
  mem_used : ℚ
deriving DecidableEq

/-- The `# GPU` loop: counts every GPU entry as one unit and sums
usage and memory, absent keys defaulting to 0. -/
def gpuFold (rs : List Report) : GpuAcc :=
  rs.foldl
    (fun acc item =>
      (item.gpus.getD []).foldl
        (fun a g =>
          ⟨a.count + 1,
           a.usage_sum + g.usage_percent.getD 0,
           a.mem_total + g.memory_total_gb.getD 0,
           a.mem_used + g.memory_used_gb.getD 0⟩)
        acc)
    ⟨0, 0, 0, 0⟩

/-- The `gpu_result` block; both guards are Python truthiness. -/
def gpu_result (rs : List Report) : GpuResult :=
  let g := gpuFold rs
  ⟨round2 g.mem_total, round2 g.mem_used,
   round2 (if g.mem_total ≠ 0 then g.mem_used / g.mem_total * 100 else 0),
   round2 (if g.count ≠ 0 then g.usage_sum / (g.count : ℚ) else 0)⟩

/-- `calculate_merge(ids)`: filter to fresh reports, return `{}` when
none qualify, otherwise build the four result blocks.  The outer `Option`
models a raised `KeyError` (possible only in the memory and disk blocks;
Python raises at the first offending subscript, which fails the whole
request exactly as the combined `none` here does). -/
def calculate_merge (ids : Option (List String)) (now : ℚ) (store : Store) :
    Option MergeResult :=
  let filtered := filteredReports ids now store
  if filtered.isEmpty then some MergeResult.emptyResult
  else
    match mem_result filtered, disk_result filtered with
    | some m, some d =>
        some (MergeResult.ok ⟨cpu_result filtered, m, d, gpu_result filtered⟩)
    | _, _ => none

/-- One element of the `/all` response: the shallow-copied report after
remapping, the `offline` flag, and the `old_hostname` key if added. -/
structure ListedItem where
  report : Report
  offline : Bool
  old_hostname : Option String
deriving DecidableEq

/-- The gpu-model remap of the `/all` loop body:
`if gpu.get("model") in MODEL_NAME_MAP: ...` — sets `old_model` to the
original and replaces `model`. -/
def remapGpu (g : GpuInfo) : GpuInfo :=
  match g.model with
  | some m =>
      match mapLookup m MODEL_NAME_MAP with
      | some m2 => { g with old_model := some m, model := some m2 }
      | none => g
  | none => g

/-- One iteration of the `/all` loop over a store entry.  Returns `none`
when the report has no `hostname` key (`item["hostname"]` raises).  On
success returns the response item AND the report the store holds
afterwards: the gpu list is shared between the shallow copy and the
stored report, so the in-place gpu remap is visible in both, while the
`offline`, `hostname` and `old_hostname` writes touch only the copy. -/
def listItem (now : ℚ) (e : Entry) : Option (ListedItem × Report) :=
  match e.report.hostname with
  | none => none
  | some h =>
      let off := decide (now - e.timestamp > 30)
      let gpus2 := e.report.gpus.map (fun gs => gs.map remapGpu)
      let stored : Report := { e.report with gpus := gpus2 }
      match mapLookup h HOSTNAME_MAP with
      | some h2 =>
          some (⟨{ stored with hostname := some h2 }, off, some h⟩, stored)
      | none =>
          some (⟨stored, off, none⟩, stored)

/-- The `/all` loop over the whole store: the response list, paired with
the store as it stands after the loop (gpu entries mutated in place).
`none` models the request failing on a missing `hostname`. -/
def listAll (now : ℚ) (store : Store) : Option (List ListedItem × Store) :=
  match store with
  | [] => some ([], [])
  | (k, e) :: rest =>
      match listItem now e, listAll now rest with
      | some (it, rep), some (its, st) =>
          some (it :: its, (k, { e with report := rep }) :: st)
      | _, _ => none

/-- The whole `/all` handler: `cleanup()` first, then the listing loop. -/
def handleAll (now : ℚ) (store : Store) : Option (List ListedItem × Store) :=
  listAll now (cleanup now store)

/-- `store.filter` dropping every entry keyed `k`; used to express that
an entry contributes nothing to an aggregate. -/
def removeId (k : String) (store : Store) : Store :=
  store.filter (fun kv => !(decide (kv.1 = k)))

/-- Spec formula (§4.2 CPU): total cores is the sum of `cores` over every
CPU entry of every report, absent values counting 0. -/
def specCpuCores (rs : List Report) : ℚ :=
  (rs.map (fun r => ((r.cpus.getD []).map (fun c => c.cores.getD 0)).sum)).sum

/-- Spec formula (§4.2 CPU): the weighted numerator
`sum(usage_percent * cores)`. -/
def specCpuWeightedSum (rs : List Report) : ℚ :=
  (rs.map (fun r =>
    ((r.cpus.getD []).map
      (fun c => c.usage_percent.getD 0 * c.cores.getD 0)).sum)).sum

/-- Spec formula (§4.2 CPU): core-weighted average
`sum(usage_percent * cores) / sum(cores)`, 0 when total cores is 0. -/
def specCpuUsage (rs : List Report) : ℚ :=
  if specCpuCores rs = 0 then 0
  else specCpuWeightedSum rs / specCpuCores rs

/-- Spec formula (§4.2 GPU): every GPU entry across every report counts
as one unit. -/
def specGpuCount (rs : List Report) : ℕ :=
  (rs.map (fun r => (r.gpus.getD []).length)).sum

/-- Spec formula (§4.2 GPU): `sum(usage_percent)` over every GPU entry. -/
def specGpuUsageSum (rs : List Report) : ℚ :=
  (rs.map (fun r =>
    ((r.gpus.getD []).map (fun g => g.usage_percent.getD 0)).sum)).sum

/-- Spec formula (§4.2 GPU): unweighted per-GPU mean
`sum(usage_percent) / count`, 0 when the count is 0. -/
def specGpuUsage (rs : List Report) : ℚ :=
  if specGpuCount rs = 0 then 0
  else specGpuUsageSum rs / (specGpuCount rs : ℚ)

/-- Sum of `memory_total_gb` over every GPU entry. -/
def specGpuMemTotal (rs : List Report) : ℚ :=
  (rs.map (fun r =>
    ((r.gpus.getD []).map (fun g => g.memory_total_gb.getD 0)).sum)).sum

/-- Sum of `memory_used_gb` over every GPU entry. -/
def specGpuMemUsed (rs : List Report) : ℚ :=
  (rs.map (fun r =>
    ((r.gpus.getD []).map (fun g => g.memory_used_gb.getD 0)).sum)).sum

/-- Every CPU entry of the report has a nonnegative `cores` value (the
data model of §3 gives `cores : integer ≥ 0`). -/
def coresNonneg (r : Report) : Bool :=
  (r.cpus.getD []).all (fun c => decide (0 ≤ c.cores.getD 0))

/-- The report has a complete `memory` section and complete disk fields:
exactly the keys `calculate_merge` subscripts directly. -/
def memDiskOk (r : Report) : Bool :=
  (match r.memory with
   | some m => m.total_gb.isSome && m.used_gb.isSome
   | none => false)
  && (r.disks.getD []).all (fun d => d.total_gb.isSome && d.used_gb.isSome)

/-! Concrete inputs used by the witnesses and counterexamples. -/

/-- A fresh report with `{cores:4, usage_percent:50}` (spec §8 example). -/
def cpuExampleR1 : Report :=
  { hostname := some "h1", cpus := some [⟨some 4, some 50⟩],
    memory := some ⟨some 0, some 0⟩ }

/-- A fresh report with `{cores:4, usage_percent:100}` (spec §8 example). -/
def cpuExampleR2 : Report :=
  { hostname := some "h2", cpus := some [⟨some 4, some 100⟩],
    memory := some ⟨some 0, some 0⟩ }

/-- Two fresh entries carrying the CPU weighting example. -/
def cpuExampleStore : Store :=
  [("a", ⟨cpuExampleR1, 0⟩), ("b", ⟨cpuExampleR2, 0⟩)]

/-- The summary `calculate_merge` produces on `cpuExampleStore`. -/
def cpuExampleSummary : MergedSummary :=
  ⟨⟨8, 75⟩, ⟨0, 0, 0⟩, ⟨0, 0, 0⟩, ⟨0, 0, 0, 0⟩⟩

/-- A report with one GPU. -/
def gpuReport (h : String) (usage mem : ℚ) : Report :=
  { hostname := some h,
    memory := some ⟨some 0, some 0⟩,
    gpus := some [{ model := some "g", usage_percent := some usage,
                    memory_total_gb := some mem, memory_used_gb := some 0 }] }

/-- Three fresh entries with GPU usages 10, 20, 90 and distinct memory
sizes 8, 16, 80 (spec §8 example). -/
def gpuExampleStore : Store :=
  [("a", ⟨gpuReport "h1" 10 8, 0⟩), ("b", ⟨gpuReport "h2" 20 16, 0⟩),
   ("c", ⟨gpuReport "h3" 90 80, 0⟩)]

/-- The summary `calculate_merge` produces on `gpuExampleStore`. -/
def gpuExampleSummary : MergedSummary :=
  ⟨⟨0, 0⟩, ⟨0, 0, 0⟩, ⟨0, 0, 0⟩, ⟨104, 0, 0, 40⟩⟩

/-- A report whose optional `memory` section is absent. -/
def missingMemReport : Report := { hostname := some "h" }

/-- One fresh entry holding `missingMemReport`. -/
def missingMemStore : Store := [("a", ⟨missingMemReport, 0⟩)]

/-- A fresh report with a complete memory section and every other
section absent. -/
def memOnlyReport : Report :=
  { hostname := some "h", memory := some ⟨some 4, some 2⟩ }

/-- One fresh entry holding `memOnlyReport`. -/
def memOnlyStore : Store := [("a", ⟨memOnlyReport, 0⟩)]

/-- A fresh report whose sections are present but all empty or zero. -/
def allZeroReport : Report :=
  { hostname := some "h", cpus := some [], memory := some ⟨some 0, some 0⟩,
    disks := some [], gpus := some [] }

/-- One fresh entry holding `allZeroReport`. -/
def allZeroStore : Store := [("a", ⟨allZeroReport, 0⟩)]

/-- The summary `calculate_merge` produces on `allZeroStore`. -/
def allZeroSummary : MergedSummary :=
  ⟨⟨0, 0⟩, ⟨0, 0, 0⟩, ⟨0, 0, 0⟩, ⟨0, 0, 0, 0⟩⟩

/-- A store holding one stale entry (age 100 at `now = 100`). -/
def staleStore : Store := [("a", ⟨memOnlyReport, 0⟩)]

/-- A store with a fresh entry keyed `"a"` and a stale entry keyed `"b"`
(ages 10 s and 100 s at `now = 0`). -/
def mixedAgeStore : Store :=
  [("a", ⟨memOnlyReport, -10⟩), ("b", ⟨memOnlyReport, -100⟩)]

/-- A GPU whose model string is a key of `MODEL_NAME_MAP`. -/
def mutGpu : GpuInfo :=
  { model := some "NVIDIA RTX 5880 Ada Generation", usage_percent := some 10,
    memory_total_gb := some 80, memory_used_gb := some 5 }

/-- A stored report holding `mutGpu`. -/
def mutReport : Report := { hostname := some "host1", gpus := some [mutGpu] }

/-- A store holding one fresh entry with `mutReport`. -/
def mutStore : Store := [("a", ⟨mutReport, 0⟩)]

/-- `mutGpu` after the in-place remap of the `/all` loop. -/
def mutGpuAfter : GpuInfo :=
  { mutGpu with
    model := some "RTX 4080 Ada"
    old_model := some "NVIDIA RTX 5880 Ada Generation" }

/-- What `mutStore` holds after one `/all` request. -/
def mutStoreAfter : Store :=
  [("a", ⟨{ mutReport with gpus := some [mutGpuAfter] }, 0⟩)]

/-- An entry whose hostname is a key of `HOSTNAME_MAP`. -/
def remapEntry : Entry := ⟨{ hostname := some "user-ThinkStation-PX" }, 0⟩

/-- An entry whose hostname is in no remap table. -/
def plainEntry : Entry := ⟨{ hostname := some "other" }, 0⟩

/-- The item `/all` lists for `remapEntry`. -/
def remappedItem : ListedItem :=
  ⟨{ hostname := some "user-ThinkStation-PX1" }, false,
   some "user-ThinkStation-PX"⟩

/-- The item `/all` lists for `plainEntry`. -/
def plainItem : ListedItem := ⟨{ hostname := some "other" }, false, none⟩

/-- A report that was ingested without a `hostname` key. -/
def noHostReport : Report := { memory := some ⟨some 1, some 1⟩ }

/-- A store mixing a well-formed entry and a hostname-less one. -/
def noHostStore : Store :=
  [("good", ⟨{ hostname := some "h" }, 0⟩), ("bad", ⟨noHostReport, 0⟩)]

/-- Report of the fresh entry of the partition example. -/
def partReportA : Report := { hostname := some "ha" }

/-- Report of the offline-but-listed entry of the partition example. -/
def partReportB : Report := { hostname := some "hb" }

/-- Report of the expired entry of the partition example. -/
def partReportC : Report := { hostname := some "hc" }

/-- Three entries aged 10 s, 100 s and 400 s at `now = 0`. -/
def partitionStore : Store :=
  [("a", ⟨partReportA, -10⟩), ("b", ⟨partReportB, -100⟩),
   ("c", ⟨partReportC, -400⟩)]

/-- Items `/all`'s loop produces on `partitionStore` (no sweep). -/
def partItemA : ListedItem := ⟨partReportA, false, none⟩

/-- Item listed for the 100 s old entry. -/
def partItemB : ListedItem := ⟨partReportB, true, none⟩

/-- Item listed for the 400 s old entry. -/
def partItemC : ListedItem := ⟨partReportC, true, none⟩

/-- The `/all` loop response on `partitionStore`. -/
def partItems : List ListedItem := [partItemA, partItemB, partItemC]

/-! Helper lemmas about the aggregation loops. -/

theorem cpuFold_inner (cs : List CpuInfo) (a : ℚ × ℚ) :
    cs.foldl
      (fun acc2 cpu =>
        (acc2.1 + cpu.cores.getD 0,
         acc2.2 + cpu.usage_percent.getD 0 * cpu.cores.getD 0)) a =
    (a.1 + (cs.map (fun c => c.cores.getD 0)).sum,
     a.2 + (cs.map (fun c => c.usage_percent.getD 0 * c.cores.getD 0)).sum) := by
  induction cs generalizing a with
  | nil => simp
  | cons c cs ih =>
      simp only [List.foldl_cons, List.map_cons, List.sum_cons, ih]
      refine Prod.ext ?_ ?_ <;> simp <;> ring

theorem cpuFold_go (rs : List Report) (a : ℚ × ℚ) :
    rs.foldl
      (fun acc item =>
        (item.cpus.getD []).foldl
          (fun acc2 cpu =>
            (acc2.1 + cpu.cores.getD 0,
             acc2.2 + cpu.usage_percent.getD 0 * cpu.cores.getD 0)) acc) a =
    (a.1 + specCpuCores rs, a.2 + specCpuWeightedSum rs) := by
  induction rs generalizing a with
  | nil => simp [specCpuCores, specCpuWeightedSum]
  | cons r rs ih =>
      rw [List.foldl_cons, cpuFold_inner, ih]
      simp only [specCpuCores, specCpuWeightedSum, List.map_cons, List.sum_cons]
      refine Prod.ext ?_ ?_ <;> simp <;> ring

/-- The `# CPU` loop computes the spec's two sums. -/
theorem cpuFold_eq (rs : List Report) :
    cpuFold rs = (specCpuCores rs, specCpuWeightedSum rs) := by
  have := cpuFold_go rs (0, 0)
  simpa [cpuFold] using this

theorem gpuFold_inner (gs : List GpuInfo) (a : GpuAcc) :
    gs.foldl
      (fun a2 g =>
        ⟨a2.count + 1,
         a2.usage_sum + g.usage_percent.getD 0,
         a2.mem_total + g.memory_total_gb.getD 0,
         a2.mem_used + g.memory_used_gb.getD 0⟩) a =
    ⟨a.count + gs.length,
     a.usage_sum + (gs.map (fun g => g.usage_percent.getD 0)).sum,
     a.mem_total + (gs.map (fun g => g.memory_total_gb.getD 0)).sum,
     a.mem_used + (gs.map (fun g => g.memory_used_gb.getD 0)).sum⟩ := by
  induction gs generalizing a with
  | nil => simp
  | cons g gs ih =>
      rw [List.foldl_cons, ih]
      simp only [List.map_cons, List.sum_cons, List.length_cons, GpuAcc.mk.injEq]
      refine ⟨by omega, by ring, by ring, by ring⟩

theorem gpuFold_go (rs : List Report) (a : GpuAcc) :
    rs.foldl
      (fun acc item =>
        (item.gpus.getD []).foldl
          (fun a2 g =>
            ⟨a2.count + 1,
             a2.usage_sum + g.usage_percent.getD 0,
             a2.mem_total + g.memory_total_gb.getD 0,
             a2.mem_used + g.memory_used_gb.getD 0⟩) acc) a =
    ⟨a.count + specGpuCount rs, a.usage_sum + specGpuUsageSum rs,
     a.mem_total + specGpuMemTotal rs, a.mem_used + specGpuMemUsed rs⟩ := by
  induction rs generalizing a with
  | nil => simp [specGpuCount, specGpuUsageSum, specGpuMemTotal, specGpuMemUsed]
  | cons r rs ih =>
      rw [List.foldl_cons, gpuFold_inner, ih]
      simp only [specGpuCount, specGpuUsageSum, specGpuMemTotal,
        specGpuMemUsed, List.map_cons, List.sum_cons, GpuAcc.mk.injEq]
      refine ⟨by omega, by ring, by ring, by ring⟩

/-- The `# GPU` loop computes the spec's count and three sums. -/
theorem gpuFold_eq (rs : List Report) :
    gpuFold rs =
      ⟨specGpuCount rs, specGpuUsageSum rs, specGpuMemTotal rs,
       specGpuMemUsed rs⟩ := by
  have := gpuFold_go rs ⟨0, 0, 0, 0⟩
  simpa [gpuFold] using this

theorem specCpuCores_nonneg (rs : List Report)
    (hw : ∀ r ∈ rs, coresNonneg r = true) : 0 ≤ specCpuCores rs := by
  unfold specCpuCores
  refine List.sum_nonneg ?_
  intro x hx
  simp only [List.mem_map] at hx
  obtain ⟨r, hr, rfl⟩ := hx
  refine List.sum_nonneg ?_
  intro y hy
  simp only [List.mem_map] at hy
  obtain ⟨c, hcmem, rfl⟩ := hy
  have hall := hw r hr
  unfold coresNonneg at hall
  rw [List.all_eq_true] at hall
  simpa using hall c hcmem

/-- `round(0, 2) = 0`. -/
theorem round2_zero : round2 0 = 0 := by simp [round2]

/-- What a successful non-empty merge is made of. -/
theorem merge_ok_elim (ids : Option (List String)) (now : ℚ) (store : Store)
    (s : MergedSummary)
    (h : calculate_merge ids now store = some (MergeResult.ok s)) :
    s.cpus = cpu_result (filteredReports ids now store) ∧
    s.gpus = gpu_result (filteredReports ids now store) ∧
    mem_result (filteredReports ids now store) = some s.memory ∧
    disk_result (filteredReports ids now store) = some s.disk := by
  unfold calculate_merge at h
  by_cases he : (filteredReports ids now store).isEmpty
  · simp [he] at h
  · simp only [he, Bool.false_eq_true, if_false] at h
    cases hm : mem_result (filteredReports ids now store) with
    | none => rw [hm] at h; simp at h
    | some m =>
        cases hd : disk_result (filteredReports ids now store) with
        | none => rw [hm, hd] at h; simp at h
        | some d =>
            rw [hm, hd] at h
            simp only [Option.some.injEq, MergeResult.ok.injEq] at h
            rw [← h]
            exact ⟨rfl, rfl, rfl, rfl⟩

theorem memTotal_isSome (rs : List Report)
    (h : ∀ r ∈ rs, memDiskOk r = true) : (memTotal rs).isSome = true := by
  induction rs with
  | nil => rfl
  | cons r rs ih =>
      have hr := h r (List.mem_cons_self r rs)
      unfold memDiskOk at hr
      rw [Bool.and_eq_true] at hr
      cases hm : r.memory with
      | none => rw [hm] at hr; simp at hr
      | some m =>
          rw [hm] at hr
          rw [Bool.and_eq_true] at hr
          obtain ⟨⟨ht, -⟩, -⟩ := hr
          obtain ⟨t, ht⟩ := Option.isSome_iff_exists.mp ht
          have hrest := ih (fun r2 h2 => h r2 (List.mem_cons_of_mem r h2))
          obtain ⟨rest, hrest⟩ := Option.isSome_iff_exists.mp hrest
          simp [memTotal, hm, ht, hrest]

theorem memUsed_isSome (rs : List Report)
    (h : ∀ r ∈ rs, memDiskOk r = true) : (memUsed rs).isSome = true := by
  induction rs with
  | nil => rfl
  | cons r rs ih =>
      have hr := h r (List.mem_cons_self r rs)
      unfold memDiskOk at hr
      rw [Bool.and_eq_true] at hr
      cases hm : r.memory with
      | none => rw [hm] at hr; simp at hr
      | some m =>
          rw [hm] at hr
          rw [Bool.and_eq_true] at hr
          obtain ⟨⟨-, hu⟩, -⟩ := hr
          obtain ⟨u, hu⟩ := Option.isSome_iff_exists.mp hu
          have hrest := ih (fun r2 h2 => h r2 (List.mem_cons_of_mem r h2))
          obtain ⟨rest, hrest⟩ := Option.isSome_iff_exists.mp hrest
          simp [memUsed, hm, hu, hrest]

theorem diskTotal_isSome (ds : List DiskInfo)
    (h : ∀ d ∈ ds, d.total_gb.isSome = true) : (diskTotal ds).isSome = true := by
  induction ds with
  | nil => rfl
  | cons d ds ih =>
      obtain ⟨t, ht⟩ :=
        Option.isSome_iff_exists.mp (h d (List.mem_cons_self d ds))
      have hrest := ih (fun d2 h2 => h d2 (List.mem_cons_of_mem d h2))
      obtain ⟨rest, hrest⟩ := Option.isSome_iff_exists.mp hrest
      simp [diskTotal, ht, hrest]

theorem diskUsed_isSome (ds : List DiskInfo)
    (h : ∀ d ∈ ds, d.used_gb.isSome = true) : (diskUsed ds).isSome = true := by
  induction ds with
  | nil => rfl
  | cons d ds ih =>
      obtain ⟨u, hu⟩ :=
        Option.isSome_iff_exists.mp (h d (List.mem_cons_self d ds))
      have hrest := ih (fun d2 h2 => h d2 (List.mem_cons_of_mem d h2))
      obtain ⟨rest, hrest⟩ := Option.isSome_iff_exists.mp hrest
      simp [diskUsed, hu, hrest]

theorem allDisks_fields_isSome (rs : List Report)
    (h : ∀ r ∈ rs, memDiskOk r = true) :
    ∀ d ∈ allDisks rs, d.total_gb.isSome = true ∧ d.used_gb.isSome = true := by
  intro d hd
  unfold allDisks at hd
  rw [List.mem_flatten] at hd
  obtain ⟨l, hl, hdl⟩ := hd
  rw [List.mem_map] at hl
  obtain ⟨r, hr, rfl⟩ := hl
  have hok := h r hr
  unfold memDiskOk at hok
  rw [Bool.and_eq_true] at hok
  obtain ⟨-, hall⟩ := hok
  rw [List.all_eq_true] at hall
  have := hall d hdl
  rw [Bool.and_eq_true] at this
  exact this

/-! Theorems settling the claims. -/

/-- C1.  For every non-empty set of fresh reports on which `calculate_merge`
succeeds, the CPU block holds the spec's total: the sum of `cores` over
every CPU entry of every report, and the core-weighted average
`sum(usage_percent * cores) / sum(cores)` rounded to 2 decimals, 0 when the
total is 0 (reports carry nonnegative core counts, per the §3 data model). -/
theorem merge_cpu_weighted_average (ids : Option (List String)) (now : ℚ)
    (store : Store) (s : MergedSummary)
    (hw : ∀ r ∈ filteredReports ids now store, coresNonneg r = true)
    (h : calculate_merge ids now store = some (MergeResult.ok s)) :
    s.cpus.cores = specCpuCores (filteredReports ids now store) ∧
    s.cpus.usage_percent = round2 (specCpuUsage (filteredReports ids now store)) := by
  obtain ⟨hc, -, -, -⟩ := merge_ok_elim ids now store s h
  have hfold := cpuFold_eq (filteredReports ids now store)
  have hnn := specCpuCores_nonneg (filteredReports ids now store) hw
  rw [hc]
  unfold cpu_result
  rw [hfold]
  dsimp only
  refine ⟨rfl, ?_⟩
  congr 1
  unfold specCpuUsage
  rcases lt_or_eq_of_le hnn with hpos | hzero
  · rw [if_pos hpos, if_neg (ne_of_gt hpos)]
  · rw [← hzero]
    simp

/-- C1 witness: the spec's CPU weighting example, `{cores:4, usage:50}`
and `{cores:4, usage:100}` merging to cores 8, usage 75.00. -/
theorem merge_cpu_weighted_average_witness :
    (cpuExampleSummary.cpus.cores = specCpuCores (filteredReports none 0 cpuExampleStore) ∧
     cpuExampleSummary.cpus.usage_percent =
       round2 (specCpuUsage (filteredReports none 0 cpuExampleStore))) ∧
    cpuExampleSummary.cpus.cores = 8 ∧ cpuExampleSummary.cpus.usage_percent = 75 :=
  ⟨merge_cpu_weighted_average none 0 cpuExampleStore cpuExampleSummary
    (by norm_num [filteredReports, cpuExampleStore, cpuExampleR1, cpuExampleR2,
      List.filter, coresNonneg])
    (by norm_num [calculate_merge, filteredReports, cpuExampleStore,
      cpuExampleR1, cpuExampleR2, cpuExampleSummary, List.filter, List.isEmpty,
      mem_result, memTotal, memUsed, disk_result, diskTotal, diskUsed, allDisks,
      cpu_result, cpuFold, gpu_result, gpuFold, round2]),
   by norm_num [cpuExampleSummary], by norm_num [cpuExampleSummary]⟩

/-- C4.  For every set of fresh reports on which `calculate_merge`
succeeds, the GPU loop counts every GPU entry across every report as one
unit, and the GPU usage is the unweighted per-GPU mean
`sum(usage_percent) / count` rounded to 2 decimals, 0 when the count is 0 —
independent of each GPU's memory size, which the formula never mentions. -/
theorem merge_gpu_unweighted_average (ids : Option (List String)) (now : ℚ)
    (store : Store) (s : MergedSummary)
    (h : calculate_merge ids now store = some (MergeResult.ok s)) :
    (gpuFold (filteredReports ids now store)).count =
      specGpuCount (filteredReports ids now store) ∧
    s.gpus.usage_percent = round2 (specGpuUsage (filteredReports ids now store)) := by
  obtain ⟨-, hg, -, -⟩ := merge_ok_elim ids now store s h
  have hfold := gpuFold_eq (filteredReports ids now store)
  refine ⟨by rw [hfold], ?_⟩
  rw [hg]
  unfold gpu_result
  rw [hfold]
  dsimp only
  congr 1
  unfold specGpuUsage
  rcases Nat.eq_zero_or_pos (specGpuCount (filteredReports ids now store)) with hz | hpos
  · rw [hz]
    simp
  · rw [if_pos (Nat.pos_iff_ne_zero.mp hpos), if_neg (Nat.pos_iff_ne_zero.mp hpos)]

/-- C4 witness: the spec's GPU averaging example, usages 10, 20, 90 with
memory sizes 8, 16, 80 merging to usage 40.00. -/
theorem merge_gpu_unweighted_average_witness :
    ((gpuFold (filteredReports none 0 gpuExampleStore)).count =
       specGpuCount (filteredReports none 0 gpuExampleStore) ∧
     gpuExampleSummary.gpus.usage_percent =
       round2 (specGpuUsage (filteredReports none 0 gpuExampleStore))) ∧
    gpuExampleSummary.gpus.usage_percent = 40 :=
  ⟨merge_gpu_unweighted_average none 0 gpuExampleStore gpuExampleSummary
    (by norm_num [calculate_merge, filteredReports, gpuExampleStore, gpuReport,
      gpuExampleSummary, List.filter, List.isEmpty, mem_result, memTotal,
      memUsed, disk_result, diskTotal, diskUsed, allDisks, cpu_result, cpuFold,
      gpu_result, gpuFold, round2]),
   by norm_num [gpuExampleSummary]⟩

/-- C7.  Zero-guards: whenever `calculate_merge` succeeds on a non-empty
report set, zero total CPU cores, zero total memory, zero total disk, zero
GPU count, or zero total GPU memory each give 0 for the corresponding
usage percentage instead of a division failure. -/
theorem merge_zero_guard (ids : Option (List String)) (now : ℚ)
    (store : Store) (s : MergedSummary)
    (h : calculate_merge ids now store = some (MergeResult.ok s)) :
    (specCpuCores (filteredReports ids now store) = 0 →
       s.cpus.usage_percent = 0) ∧
    (memTotal (filteredReports ids now store) = some 0 →
       s.memory.usage_percent = 0) ∧
    (diskTotal (allDisks (filteredReports ids now store)) = some 0 →
       s.disk.usage_percent = 0) ∧
    (specGpuCount (filteredReports ids now store) = 0 →
       s.gpus.usage_percent = 0) ∧
    (specGpuMemTotal (filteredReports ids now store) = 0 →
       s.gpus.memory_usage_percent = 0) := by
  obtain ⟨hc, hg, hmem, hdisk⟩ := merge_ok_elim ids now store s h
  have hcfold := cpuFold_eq (filteredReports ids now store)
  have hgfold := gpuFold_eq (filteredReports ids now store)
  refine ⟨?_, ?_, ?_, ?_, ?_⟩
  · intro h0
    rw [hc]
    unfold cpu_result
    rw [hcfold]
    dsimp only
    rw [h0]
    simp [round2_zero]
  · intro h0
    unfold mem_result at hmem
    rw [h0] at hmem
    cases hu : memUsed (filteredReports ids now store) with
    | none => rw [hu] at hmem; simp at hmem
    | some u =>
        rw [hu] at hmem
        simp only [Option.some.injEq] at hmem
        rw [← hmem]
        simp [round2_zero]
  · intro h0
    unfold disk_result at hdisk
    rw [h0] at hdisk
    cases hu : diskUsed (allDisks (filteredReports ids now store)) with
    | none => rw [hu] at hdisk; simp at hdisk
    | some u =>
        rw [hu] at hdisk
        simp only [Option.some.injEq] at hdisk
        rw [← hdisk]
        simp [round2_zero]
  · intro h0
    rw [hg]
    unfold gpu_result
    rw [hgfold]
    dsimp only
    rw [h0]
    simp [round2_zero]
  · intro h0
    rw [hg]
    unfold gpu_result
    rw [hgfold]
    dsimp only
    rw [h0]
    simp [round2_zero]

/-- C7 witness: a fresh report with empty sections exercises all five
zero-guards at once. -/
theorem merge_zero_guard_witness :
    allZeroSummary.cpus.usage_percent = 0 ∧
    allZeroSummary.memory.usage_percent = 0 ∧
    allZeroSummary.disk.usage_percent = 0 ∧
    allZeroSummary.gpus.usage_percent = 0 ∧
    allZeroSummary.gpus.memory_usage_percent = 0 := by
  have hm : calculate_merge none 0 allZeroStore =
      some (MergeResult.ok allZeroSummary) := by
    norm_num [calculate_merge, filteredReports, allZeroStore, allZeroReport,
      allZeroSummary, List.filter, List.isEmpty, mem_result, memTotal, memUsed,
      disk_result, diskTotal, diskUsed, allDisks, cpu_result, cpuFold,
      gpu_result, gpuFold, round2]
  have T := merge_zero_guard none 0 allZeroStore allZeroSummary hm
  exact ⟨T.1 (by norm_num [specCpuCores, filteredReports, allZeroStore,
      allZeroReport, List.filter]),
    T.2.1 (by norm_num [memTotal, filteredReports, allZeroStore, allZeroReport,
      List.filter]),
    T.2.2.1 (by norm_num [diskTotal, allDisks, filteredReports, allZeroStore,
      allZeroReport, List.filter]),
    T.2.2.2.1 (by norm_num [specGpuCount, filteredReports, allZeroStore,
      allZeroReport, List.filter]),
    T.2.2.2.2 (by norm_num [specGpuMemTotal, filteredReports, allZeroStore,
      allZeroReport, List.filter])⟩

/-- C2 counterexample: a fresh report whose optional `memory` section is
absent makes `calculate_merge` raise a `KeyError` (modelled `none`) rather
than contribute zero. -/
theorem merge_missing_memory_fails :
    calculate_merge none 0 missingMemStore = none := by
  norm_num [calculate_merge, filteredReports, missingMemStore,
    missingMemReport, List.filter, List.isEmpty, mem_result, memTotal]

/-- C2 as amended: an absent `cpus`, `disks` or `gpus` section (and any
absent field inside a CPU or GPU entry) contributes zero/empty and never
fails, PROVIDED every fresh report carries a `memory` section with
`total_gb` and `used_gb` and every disk entry carries `total_gb` and
`used_gb`; those are accessed by direct subscript and their absence makes
the merge fail. -/
theorem merge_absent_sections (ids : Option (List String)) (now : ℚ)
    (store : Store)
    (h : ∀ r ∈ filteredReports ids now store, memDiskOk r = true) :
    (calculate_merge ids now store).isSome = true ∧
    ∀ r rs, r.cpus = none → r.disks = none → r.gpus = none →
      specCpuCores (r :: rs) = specCpuCores rs ∧
      specCpuWeightedSum (r :: rs) = specCpuWeightedSum rs ∧
      specGpuCount (r :: rs) = specGpuCount rs ∧
      specGpuUsageSum (r :: rs) = specGpuUsageSum rs ∧
      allDisks (r :: rs) = allDisks rs := by
  constructor
  · unfold calculate_merge
    by_cases he : (filteredReports ids now store).isEmpty
    · simp [he]
    · simp only [he, Bool.false_eq_true, if_false]
      obtain ⟨mt, hmt⟩ := Option.isSome_iff_exists.mp
        (memTotal_isSome (filteredReports ids now store) h)
      obtain ⟨mu, hmu⟩ := Option.isSome_iff_exists.mp
        (memUsed_isSome (filteredReports ids now store) h)
      have hfields := allDisks_fields_isSome (filteredReports ids now store) h
      obtain ⟨dt, hdt⟩ := Option.isSome_iff_exists.mp
        (diskTotal_isSome (allDisks (filteredReports ids now store))
          (fun d hd => (hfields d hd).1))
      obtain ⟨du, hdu⟩ := Option.isSome_iff_exists.mp
        (diskUsed_isSome (allDisks (filteredReports ids now store))
          (fun d hd => (hfields d hd).2))
      rw [mem_result, disk_result, hmt, hmu, hdt, hdu]
      rfl
  · intro r rs hc hd hg
    refine ⟨?_, ?_, ?_, ?_, ?_⟩ <;>
      simp [specCpuCores, specCpuWeightedSum, specGpuCount, specGpuUsageSum,
        allDisks, hc, hd, hg]

/-- C2 witness: a fresh report with only an identifier and a complete
memory section merges without failing. -/
theorem merge_absent_sections_witness :
    (calculate_merge none 0 memOnlyStore).isSome = true :=
  (merge_absent_sections none 0 memOnlyStore
    (by norm_num [filteredReports, memOnlyStore, memOnlyReport, List.filter,
      memDiskOk])).1

/-- C6.  Merge over an empty report set — no fresh entries at all, or a
non-empty id filter matching no fresh entry (ids that are unknown, and
ids whose entries are stale, are both silently ignored, even while other
non-matching entries are fresh) — returns the empty-summary sentinel,
not an error and not a zero-filled summary. -/
theorem merge_empty_sentinel (ids : Option (List String)) (now : ℚ)
    (store : Store) :
    ((∀ kv ∈ store, ¬(now - (kv : String × Entry).2.timestamp ≤ 30)) →
       calculate_merge ids now store = some MergeResult.emptyResult) ∧
    (∀ i rest, ids = some (i :: rest) →
       (∀ kv ∈ store, (kv : String × Entry).1 ∈ i :: rest →
          ¬(now - (kv : String × Entry).2.timestamp ≤ 30)) →
       calculate_merge ids now store = some MergeResult.emptyResult) := by
  constructor
  · intro hstale
    have hf : filteredReports ids now store = [] := by
      unfold filteredReports
      match ids with
      | some (i :: rest) =>
          rw [List.map_eq_nil_iff, List.filter_eq_nil_iff]
          intro kv hkv
          simp [hstale kv hkv]
      | some [] =>
          rw [List.map_eq_nil_iff, List.filter_eq_nil_iff]
          intro kv hkv
          simp [hstale kv hkv]
      | none =>
          rw [List.map_eq_nil_iff, List.filter_eq_nil_iff]
          intro kv hkv
          simp [hstale kv hkv]
    unfold calculate_merge
    rw [hf]
    rfl
  · intro i rest hids hnot
    have hf : filteredReports ids now store = [] := by
      rw [hids]
      unfold filteredReports
      rw [List.map_eq_nil_iff, List.filter_eq_nil_iff]
      intro kv hkv
      by_cases hin : kv.1 ∈ i :: rest
      · simp [hnot kv hkv hin]
      · simp [hin]
    unfold calculate_merge
    rw [hf]
    rfl

/-- C6 witness: a store holding a fresh entry `"a"` and a 100 s old
entry `"b"`, merged under the filter `["b"]` — the filter names a known
id whose entry is stale while a fresh non-matching entry exists — gives
the `{}` sentinel. -/
theorem merge_empty_sentinel_witness :
    calculate_merge (some ["b"]) 0 mixedAgeStore = some MergeResult.emptyResult :=
  (merge_empty_sentinel (some ["b"]) 0 mixedAgeStore).2 "b" [] rfl
    (by
      intro kv hkv hin
      rw [mixedAgeStore, List.mem_cons, List.mem_singleton] at hkv
      rcases hkv with rfl | rfl
      · exact absurd hin (by decide)
      · norm_num)

/-- C10.  `calculate_merge` with the empty id filter behaves exactly like
`calculate_merge` with no filter: Python's `if ids:` is false for the
empty list, so aggregation runs over all fresh entries. -/
theorem merge_empty_filter_is_no_filter (now : ℚ) (store : Store) :
    calculate_merge (some []) now store = calculate_merge none now store := rfl

/-! Helper lemmas about the `/all` listing loop and the store. -/

theorem listItem_offline_eq (now : ℚ) (e : Entry) (it : ListedItem)
    (rep : Report) (h : listItem now e = some (it, rep)) :
    it.offline = decide (now - e.timestamp > 30) := by
  unfold listItem at h
  cases hh : e.report.hostname with
  | none => rw [hh] at h; simp at h
  | some hst =>
      rw [hh] at h
      dsimp only at h
      cases hm : mapLookup hst HOSTNAME_MAP with
      | some h2 =>
          rw [hm] at h
          dsimp only at h
          simp only [Option.some.injEq, Prod.mk.injEq] at h
          rw [← h.1]
      | none =>
          rw [hm] at h
          dsimp only at h
          simp only [Option.some.injEq, Prod.mk.injEq] at h
          rw [← h.1]

theorem listAll_item_mem (now : ℚ) (store : Store) (items : List ListedItem)
    (st : Store) (k : String) (e : Entry) (it : ListedItem) (rep : Report)
    (hall : listAll now store = some (items, st)) (hmem : (k, e) ∈ store)
    (hit : listItem now e = some (it, rep)) : it ∈ items := by
  induction store generalizing items st with
  | nil => cases hmem
  | cons kv rest ih =>
      obtain ⟨k2, e2⟩ := kv
      unfold listAll at hall
      cases h1 : listItem now e2 with
      | none => rw [h1] at hall; simp at hall
      | some p =>
          obtain ⟨it2, rep2⟩ := p
          cases h2 : listAll now rest with
          | none => rw [h1, h2] at hall; simp at hall
          | some q =>
              obtain ⟨its, st2⟩ := q
              rw [h1, h2] at hall
              simp only [Option.some.injEq, Prod.mk.injEq] at hall
              obtain ⟨hitems, -⟩ := hall
              rw [List.mem_cons] at hmem
              rcases hmem with heq | hmem2
              · injection heq with hk he
                subst he
                rw [h1] at hit
                simp only [Option.some.injEq, Prod.mk.injEq] at hit
                rw [← hitems, ← hit.1]
                exact List.mem_cons_self _ _
              · rw [← hitems]
                exact List.mem_cons_of_mem _ (ih its st2 h2 hmem2)

theorem findEntry_mem (k : String) (e : Entry) (store : Store)
    (h : findEntry k store = some e) : (k, e) ∈ store := by
  induction store with
  | nil => simp [findEntry] at h
  | cons kv rest ih =>
      obtain ⟨k2, e2⟩ := kv
      rw [findEntry] at h
      by_cases hk : k2 = k
      · rw [if_pos hk] at h
        injection h with he
        subst he
        subst hk
        exact List.mem_cons_self _ _
      · rw [if_neg hk] at h
        exact List.mem_cons_of_mem _ (ih h)

theorem report_mem_freshReports (now : ℚ) (k : String) (e : Entry)
    (store : Store) (hmem : (k, e) ∈ store)
    (hage : now - e.timestamp ≤ 30) : e.report ∈ freshReports now store := by
  unfold freshReports
  rw [List.mem_map]
  refine ⟨(k, e), ?_, rfl⟩
  rw [List.mem_filter]
  exact ⟨hmem, by simpa using hage⟩

theorem findEntry_none_of_not_hasKey (k : String) (store : Store)
    (h : hasKey k store = false) : findEntry k store = none := by
  induction store with
  | nil => rfl
  | cons kv rest ih =>
      obtain ⟨k2, e2⟩ := kv
      unfold hasKey at h
      rw [List.any_cons, Bool.or_eq_false_iff] at h
      rw [findEntry, if_neg (by simpa using h.1)]
      exact ih h.2

theorem hasKey_filter_false (k : String) (p : String × Entry → Bool)
    (store : Store) (h : hasKey k store = false) :
    hasKey k (store.filter p) = false := by
  unfold hasKey at *
  rw [List.any_eq_false] at *
  intro kv hkv
  exact h kv (List.mem_of_mem_filter hkv)

theorem findEntry_cleanup_some (now : ℚ) (k : String) (e : Entry)
    (store : Store) (hlk : findEntry k store = some e)
    (hage : now - e.timestamp ≤ 300) :
    findEntry k (cleanup now store) = some e := by
  induction store with
  | nil => simp [findEntry] at hlk
  | cons kv rest ih =>
      obtain ⟨k2, e2⟩ := kv
      rw [findEntry] at hlk
      by_cases hk : k2 = k
      · rw [if_pos hk] at hlk
        injection hlk with he
        subst he
        rw [cleanup, List.filter_cons, if_pos (by simpa using hage)]
        rw [findEntry, if_pos hk]
      · rw [if_neg hk] at hlk
        rw [cleanup, List.filter_cons]
        by_cases hp : now - e2.timestamp ≤ 300
        · rw [if_pos (by simpa using hp), findEntry, if_neg hk]
          exact ih hlk
        · rw [if_neg (by simpa using hp)]
          exact ih hlk

theorem findEntry_cleanup_none (now : ℚ) (k : String) (e : Entry)
    (store : Store) (hnd : keysDistinct store = true)
    (hlk : findEntry k store = some e) (hage : 300 < now - e.timestamp) :
    findEntry k (cleanup now store) = none := by
  induction store with
  | nil => simp [findEntry] at hlk
  | cons kv rest ih =>
      obtain ⟨k2, e2⟩ := kv
      rw [keysDistinct, Bool.and_eq_true] at hnd
      obtain ⟨hnk, hnd2⟩ := hnd
      rw [findEntry] at hlk
      by_cases hk : k2 = k
      · rw [if_pos hk] at hlk
        injection hlk with he
        subst he
        subst hk
        rw [cleanup, List.filter_cons, if_neg (by simpa using not_le.mpr hage)]
        exact findEntry_none_of_not_hasKey k2 _
          (hasKey_filter_false k2 _ rest (by simpa using hnk))
      · rw [if_neg hk] at hlk
        rw [cleanup, List.filter_cons]
        by_cases hp : now - e2.timestamp ≤ 300
        · rw [if_pos (by simpa using hp), findEntry, if_neg hk]
          exact ih hnd2 hlk
        · rw [if_neg (by simpa using hp)]
          exact ih hnd2 hlk

theorem removeId_of_not_hasKey (k : String) (store : Store)
    (h : hasKey k store = false) : removeId k store = store := by
  unfold removeId
  rw [List.filter_eq_self]
  intro kv hkv
  unfold hasKey at h
  rw [List.any_eq_false] at h
  simpa using h kv hkv

theorem fresh_filter_removeId (now : ℚ) (k : String) (e : Entry)
    (store : Store) (hnd : keysDistinct store = true)
    (hlk : findEntry k store = some e) (hage : ¬(now - e.timestamp ≤ 30)) :
    store.filter (fun kv => decide (now - kv.2.timestamp ≤ 30)) =
    (removeId k store).filter (fun kv => decide (now - kv.2.timestamp ≤ 30)) := by
  induction store with
  | nil => rfl
  | cons kv rest ih =>
      obtain ⟨k2, e2⟩ := kv
      rw [keysDistinct, Bool.and_eq_true] at hnd
      obtain ⟨hnk, hnd2⟩ := hnd
      rw [findEntry] at hlk
      by_cases hk : k2 = k
      · rw [if_pos hk] at hlk
        injection hlk with he
        subst he
        subst hk
        have h1 : removeId k2 ((k2, e2) :: rest) = removeId k2 rest := by
          simp [removeId, List.filter_cons]
        have h2 : removeId k2 rest = rest :=
          removeId_of_not_hasKey k2 rest (by simpa using hnk)
        rw [h1, h2, List.filter_cons, if_neg (by simpa using hage)]
      · have h1 : removeId k ((k2, e2) :: rest) = (k2, e2) :: removeId k rest := by
          simp [removeId, List.filter_cons, hk]
        rw [if_neg hk] at hlk
        rw [h1, List.filter_cons, List.filter_cons, ih hnd2 hlk]

theorem freshReports_removeId (now : ℚ) (k : String) (e : Entry)
    (store : Store) (hnd : keysDistinct store = true)
    (hlk : findEntry k store = some e) (hage : ¬(now - e.timestamp ≤ 30)) :
    freshReports now store = freshReports now (removeId k store) := by
  unfold freshReports
  rw [fresh_filter_removeId now k e store hnd hlk hage]

/-- `filteredReports` without a filter is exactly `freshReports`. -/
theorem filteredReports_none (now : ℚ) (store : Store) :
    filteredReports none now store = freshReports now store := rfl

/-- C3.  Listing is NOT mutation-free: `/all` copies each report with a
shallow `dict.copy()` and then writes through `item["gpus"][index]`, which
aliases the stored gpu dictionaries.  On a store whose one report holds a
remappable GPU model, the handler returns a store whose stored report now
carries the replacement model and an `old_model` key — the stored data is
no longer byte-for-byte identical, contradicting the claim. -/
theorem list_mutates_stored_gpu :
    (handleAll 0 mutStore).map Prod.snd = some mutStoreAfter ∧
    mutStoreAfter ≠ mutStore ∧
    (findEntry "a" mutStoreAfter).map (fun e => e.report.gpus) =
      some (some [mutGpuAfter]) ∧
    mutGpuAfter.model = some "RTX 4080 Ada" ∧
    mutGpuAfter.old_model = some "NVIDIA RTX 5880 Ada Generation" := by
  refine ⟨?_, ?_, ?_, rfl, rfl⟩
  · have hml : mapLookup "host1" HOSTNAME_MAP = none := by decide
    have hgm : mapLookup "NVIDIA RTX 5880 Ada Generation" MODEL_NAME_MAP =
        some "RTX 4080 Ada" := by decide
    norm_num [handleAll, cleanup, listAll, listItem, remapGpu, hml, hgm,
      mutStore, mutReport, mutGpu, mutStoreAfter, mutGpuAfter, List.filter]
  · simp [mutStoreAfter, mutStore, mutReport, mutGpu, mutGpuAfter]
  · simp [findEntry, mutStoreAfter]

/-- C8.  Remap transparency: listing an entry whose hostname is a key of
`HOSTNAME_MAP` yields the canonical hostname plus `old_hostname` equal to
the stored original; an entry whose hostname is not in the table is
returned unchanged with no `old_hostname`. -/
theorem remap_transparency (now : ℚ) (e : Entry) (h : String)
    (hh : e.report.hostname = some h) :
    (listItem now e).isSome = true ∧
    ∀ it rep, listItem now e = some (it, rep) →
      (∀ h2, mapLookup h HOSTNAME_MAP = some h2 →
         it.report.hostname = some h2 ∧ it.old_hostname = some h) ∧
      (mapLookup h HOSTNAME_MAP = none →
         it.report.hostname = some h ∧ it.old_hostname = none) := by
  unfold listItem
  rw [hh]
  dsimp only
  cases hm : mapLookup h HOSTNAME_MAP with
  | some h2 =>
      refine ⟨rfl, ?_⟩
      intro it rep heq
      simp only [Option.some.injEq, Prod.mk.injEq] at heq
      constructor
      · intro h3 hm2
        injection hm2 with h23
        subst h23
        rw [← heq.1]
        exact ⟨rfl, rfl⟩
      · intro hm2
        simp at hm2
  | none =>
      refine ⟨rfl, ?_⟩
      intro it rep heq
      simp only [Option.some.injEq, Prod.mk.injEq] at heq
      constructor
      · intro h3 hm2
        simp at hm2
      · intro hm2
        rw [← heq.1]
        exact ⟨hh, rfl⟩

/-- C8 witness: `"user-ThinkStation-PX"` is listed as
`"user-ThinkStation-PX1"` with the original preserved; `"other"` is
returned unchanged with no `old_hostname`. -/
theorem remap_transparency_witness :
    (remappedItem.report.hostname = some "user-ThinkStation-PX1" ∧
     remappedItem.old_hostname = some "user-ThinkStation-PX") ∧
    (plainItem.report.hostname = some "other" ∧
     plainItem.old_hostname = none) :=
  ⟨((remap_transparency 0 remapEntry "user-ThinkStation-PX" rfl).2
      remappedItem remapEntry.report
      (by
        have h1 : mapLookup "user-ThinkStation-PX" HOSTNAME_MAP =
            some "user-ThinkStation-PX1" := by decide
        norm_num [listItem, remapEntry, remappedItem, h1])).1
    "user-ThinkStation-PX1" (by decide),
   ((remap_transparency 0 plainEntry "other" rfl).2
      plainItem plainEntry.report
      (by
        have h1 : mapLookup "other" HOSTNAME_MAP = none := by decide
        norm_num [listItem, plainEntry, plainItem, h1])).2
    (by decide)⟩

/-- C9.  If any stored entry's report lacks a `hostname` key, the `/all`
loop raises a `KeyError` (modelled `none`): the request fails and not even
the well-formed entries are returned, although ingestion accepted the
report (only `id` is required at ingest). -/
theorem list_fails_on_missing_hostname (now : ℚ) (store : Store)
    (k : String) (e : Entry) (hm : (k, e) ∈ store)
    (hh : e.report.hostname = none) : listAll now store = none := by
  induction store with
  | nil => cases hm
  | cons kv rest ih =>
      obtain ⟨k2, e2⟩ := kv
      rw [List.mem_cons] at hm
      rcases hm with heq | hmem
      · injection heq with hk he
        subst hk
        subst he
        have hitem : listItem now e = none := by
          unfold listItem
          rw [hh]
        unfold listAll
        rw [hitem]
      · unfold listAll
        rw [ih hmem]
        cases listItem now e2 <;> rfl

/-- C9 witness: a store holding one well-formed entry and one entry with
no hostname returns nothing at all from the `/all` loop. -/
theorem list_fails_on_missing_hostname_witness :
    listAll 0 noHostStore = none :=
  list_fails_on_missing_hostname 0 noHostStore "bad" ⟨noHostReport, 0⟩
    (by simp [noHostStore]) rfl

/-- C5.  Freshness partitioning for a stored entry `k ↦ e`: age ≤ 30 s —
its report is in the merge input set and it is listed with
`offline = false`; age in (30, 300] s — it survives the sweep and is
listed with `offline = true` but contributes nothing to the merge input;
age > 300 s — the sweep removes it (and it already contributed nothing),
so it appears in neither view. -/
theorem freshness_partitioning (now : ℚ) (k : String) (e : Entry)
    (store : Store) (hnd : keysDistinct store = true)
    (hlk : findEntry k store = some e) :
    (now - e.timestamp ≤ 30 →
       e.report ∈ filteredReports none now store ∧
       ∀ items st it rep, listAll now store = some (items, st) →
         listItem now e = some (it, rep) → it ∈ items ∧ it.offline = false) ∧
    (30 < now - e.timestamp → now - e.timestamp ≤ 300 →
       findEntry k (cleanup now store) = some e ∧
       (∀ items st it rep, listAll now store = some (items, st) →
          listItem now e = some (it, rep) → it ∈ items ∧ it.offline = true) ∧
       filteredReports none now store =
         filteredReports none now (removeId k store)) ∧
    (300 < now - e.timestamp →
       findEntry k (cleanup now store) = none ∧
       filteredReports none now store =
         filteredReports none now (removeId k store)) := by
  have hmem := findEntry_mem k e store hlk
  refine ⟨?_, ?_, ?_⟩
  · intro hfresh
    refine ⟨report_mem_freshReports now k e store hmem hfresh, ?_⟩
    intro items st it rep hall hit
    refine ⟨listAll_item_mem now store items st k e it rep hall hmem hit, ?_⟩
    rw [listItem_offline_eq now e it rep hit]
    exact decide_eq_false (not_lt.mpr hfresh)
  · intro h30 h300
    refine ⟨findEntry_cleanup_some now k e store hlk h300, ?_, ?_⟩
    · intro items st it rep hall hit
      refine ⟨listAll_item_mem now store items st k e it rep hall hmem hit, ?_⟩
      rw [listItem_offline_eq now e it rep hit]
      exact decide_eq_true h30
    · rw [filteredReports_none, filteredReports_none]
      exact freshReports_removeId now k e store hnd hlk (not_le.mpr h30)
  · intro hexp
    refine ⟨findEntry_cleanup_none now k e store hnd hlk hexp, ?_⟩
    rw [filteredReports_none, filteredReports_none]
    refine freshReports_removeId now k e store hnd hlk (not_le.mpr ?_)
    linarith

/-- C5 witness: entries aged 10 s, 100 s and 400 s at `now = 0`.  The
10 s entry is in the merge input and listed online; the 100 s entry
survives the sweep, is listed offline and contributes nothing to the
merge input; the 400 s entry is gone after the sweep. -/
theorem freshness_partitioning_witness :
    (partReportA ∈ filteredReports none 0 partitionStore ∧
     partItemA ∈ partItems ∧ partItemA.offline = false) ∧
    (findEntry "b" (cleanup 0 partitionStore) = some ⟨partReportB, -100⟩ ∧
     partItemB ∈ partItems ∧ partItemB.offline = true ∧
     filteredReports none 0 partitionStore =
       filteredReports none 0 (removeId "b" partitionStore)) ∧
    findEntry "c" (cleanup 0 partitionStore) = none := by
  have hitemA : listItem 0 (⟨partReportA, -10⟩ : Entry) =
      some (partItemA, partReportA) := by
    have h1 : mapLookup "ha" HOSTNAME_MAP = none := by decide
    norm_num [listItem, partReportA, partItemA, h1]
  have hitemB : listItem 0 (⟨partReportB, -100⟩ : Entry) =
      some (partItemB, partReportB) := by
    have h1 : mapLookup "hb" HOSTNAME_MAP = none := by decide
    norm_num [listItem, partReportB, partItemB, h1]
  have hitemC : listItem 0 (⟨partReportC, -400⟩ : Entry) =
      some (partItemC, partReportC) := by
    have h1 : mapLookup "hc" HOSTNAME_MAP = none := by decide
    norm_num [listItem, partReportC, partItemC, h1]
  have hall : listAll 0 partitionStore = some (partItems, partitionStore) := by
    norm_num [listAll, partitionStore, partItems, hitemA, hitemB, hitemC]
  have hndA : keysDistinct partitionStore = true := by decide
  have hlkA : findEntry "a" partitionStore = some ⟨partReportA, -10⟩ := rfl
  have hlkB : findEntry "b" partitionStore = some ⟨partReportB, -100⟩ := rfl
  have hlkC : findEntry "c" partitionStore = some ⟨partReportC, -400⟩ := rfl
  have TA := (freshness_partitioning 0 "a" ⟨partReportA, -10⟩ partitionStore
    hndA hlkA).1 (by norm_num)
  have TB := (freshness_partitioning 0 "b" ⟨partReportB, -100⟩ partitionStore
    hndA hlkB).2.1 (by norm_num) (by norm_num)
  have TC := (freshness_partitioning 0 "c" ⟨partReportC, -400⟩ partitionStore
    hndA hlkC).2.2 (by norm_num)
  obtain ⟨hA1, hA2⟩ := TA
  obtain ⟨hB1, hB2, hB3⟩ := TB
  obtain ⟨hC1, -⟩ := TC
  have hAitems := hA2 partItems partitionStore partItemA partReportA hall hitemA
  have hBitems := hB2 partItems partitionStore partItemB partReportB hall hitemB
  exact ⟨⟨hA1, hAitems.1, hAitems.2⟩, ⟨hB1, hBitems.1, hBitems.2, hB3⟩, hC1⟩

end Gpu2
